import Mathlib

/-!
# Verification of the TvTextViewer host core (src/main.cpp)

Shallow embedding of the program in Lean 4.  The pure helper functions
of `main.cpp` (`replaceEscapeSequences`, `readInputOrScriptName`,
`determineTitle`, the post-parse argument validation and the host render
loop `run`) are translated directly from the source.  The `View`
internals (`view.hpp`: wrapper and viewport) are absent from the
sources, so those parts are modelled from the specification and marked
as such in their doc comments.
-/

namespace TvTextViewer

/-- Parsed command-line options, mirroring the cxxopts result used in
`main.cpp`: which options were given and their string values.  Boolean
flags record presence; valued options are `Option String`. -/
structure Args where
  input_file : Option String
  script_file : Option String
  message : Option String
  title : Option String
  yes_button : Bool
  wrap_lines : Bool
  error_display : Bool
  help : Bool
  deriving Repr, DecidableEq

/-- The escape codes recognised by `replaceEscapeSequences`
(main.cpp lines 115-122): the character following a backslash and the
control character it decodes to.  A backslash followed by any other
character is not an escape code. -/
def escapeCode : Char → Option Char
  | 'f' => some '\x0c'
  | 'n' => some '\n'
  | 'r' => some '\r'
  | 't' => some '\t'
  | 'v' => some '\x0b'
  | '\\' => some '\\'
  | _ => none

/-- `replaceEscapeSequences` from main.cpp lines 106-136, on character
lists.  A backslash with a following character is decoded when that
character is an escape code (consuming both); otherwise the backslash
is copied and scanning continues at the following character.  A
trailing lone backslash and every non-backslash character are copied
unchanged. -/
def replaceEscapeList : List Char → List Char
  | [] => []
  | '\\' :: c :: rest =>
    match escapeCode c with
    | some decoded => decoded :: replaceEscapeList rest
    | none => '\\' :: replaceEscapeList (c :: rest)
  | c :: rest => c :: replaceEscapeList rest

/-- `replaceEscapeSequences` lifted to `String`. -/
def replaceEscapeSequences (s : String) : String :=
  ⟨replaceEscapeList s.data⟩

/-- The file system as seen by `readInputOrScriptName`: a file name
maps to its contents, or to `none` when the file cannot be opened. -/
def FileSystem := String → Option String

/-- `readInputOrScriptName` from main.cpp lines 139-167.  With an
`input_file` option the named file is read, an unopenable file giving
the empty string (lines 145-148); otherwise a `script_file` option
yields its value verbatim (lines 159-162); otherwise the `message`
option's value is returned after escape-sequence replacement (line
165).  The C++ code reaches the message branch only when `message` was
given (guaranteed by `parseArgs`); the model totalises it with the
empty string. -/
def readInputOrScriptName (fs : FileSystem) (args : Args) : String :=
  match args.input_file with
  | some inputFilename =>
    match fs inputFilename with
    | none => ""
    | some contents => contents
  | none =>
    match args.script_file with
    | some scriptName => scriptName
    | none => replaceEscapeSequences (args.message.getD "")

/-- `determineTitle` from main.cpp lines 170-188: the `title` option if
present, else the `input_file` option, else "Error!!" under
`error_display`, else "Info". -/
def determineTitle (args : Args) : String :=
  match args.title with
  | some t => t
  | none =>
    match args.input_file with
    | some f => f
    | none => if args.error_display then "Error!!" else "Info"

/-- SDL events as far as the host loop inspects them
(main.cpp lines 233-242): quit, a controller button press, a
window-close event (tagged with whether it targets this window), or
anything else. -/
inductive SDLEvent
  | quit
  | controllerButtonDown (isGuide : Bool) (isBack : Bool)
  | windowClose (isThisWindow : Bool)
  | other
  deriving Repr, DecidableEq

/-- The condition of main.cpp lines 233-240 under which the host loop
returns 0 immediately: SDL_QUIT, a controller GUIDE or BACK button, or
a close event for this window. -/
def isQuitEvent : SDLEvent → Bool
  | .quit => true
  | .controllerButtonDown g b => g || b
  | .windowClose thisWin => thisWin
  | .other => false

/-- One iteration of the host loop: the SDL events drained that frame
and the value `view.draw` returns that frame (main.cpp line 258),
`none` while the view keeps running. -/
structure Frame where
  events : List SDLEvent
  draw : Option Int
  deriving Repr, DecidableEq

/-- Whether a frame's drained events contain one of the quit events of
main.cpp lines 233-240. -/
def Frame.hasQuit (f : Frame) : Bool :=
  f.events.any isQuitEvent

/-- Outcome of the host loop over a finite schedule of frames: either
`run` returned (with its exit code) or the loop is still running after
the scheduled frames. -/
inductive LoopResult
  | exited (code : Int)
  | running
  deriving Repr, DecidableEq

/-- The host loop of `run` (main.cpp lines 226-269) with the
`exitCode` variable explicit.  The loop condition `!exitCode` is
checked first: a set exit code ends the loop at once with that value.
Otherwise a frame is processed: a quit event returns 0 immediately
(line 241), else `exitCode` is assigned the frame's draw result
(line 258) and the loop continues. -/
def runAux : Option Int → List Frame → LoopResult
  | some c, _ => .exited c
  | none, [] => .running
  | none, f :: rest =>
    if f.hasQuit then .exited 0 else runAux f.draw rest

/-- `run`'s loop started from `std::optional<int> exitCode;`, which is
empty (main.cpp line 226). -/
def runLoop (frames : List Frame) : LoopResult :=
  runAux none frames

/-- How many frames the loop of `runAux` processes: none once the exit
code is set, and one per iteration until a quit event or a draw value
ends the loop. -/
def framesProcessedAux : Option Int → List Frame → Nat
  | some _, _ => 0
  | none, [] => 0
  | none, f :: rest =>
    if f.hasQuit then 1 else 1 + framesProcessedAux f.draw rest

/-- Frames processed by `runLoop`. -/
def framesProcessed (frames : List Frame) : Nat :=
  framesProcessedAux none frames

/-- Modelled from the spec: the viewport scroll state of section 3
(ViewportState), since view.hpp is absent from the sources.  `topRow`
is a non-negative row offset and `visibleRowCount` the number of rows
shown. -/
structure ViewportState where
  topRow : Nat
  visibleRowCount : Nat
  deriving Repr, DecidableEq

/-- Modelled from the spec: the upper clamping bound
`max(0, totalRows - visibleRowCount)` of section 4.3; natural-number
subtraction is exactly the truncation at zero. -/
def maxTopRow (totalRows visibleRowCount : Nat) : Nat :=
  totalRows - visibleRowCount

/-- Modelled from the spec: clamping an integer candidate offset into
`[0, max(0, totalRows - visibleRowCount)]` (section 4.3). -/
def clampTopRow (candidate : Int) (totalRows visibleRowCount : Nat) : Nat :=
  min (max candidate 0).toNat (maxTopRow totalRows visibleRowCount)

/-- Modelled from the spec: `scroll(state, delta)` of section 4.3,
moving `topRow` by a signed row delta and clamping. -/
def scroll (s : ViewportState) (totalRows : Nat) (delta : Int) : ViewportState :=
  { s with topRow := clampTopRow ((s.topRow : Int) + delta) totalRows s.visibleRowCount }

/-- Modelled from the spec: `pageScroll(state, direction)` of section
4.3, moving by `visibleRowCount - 1` rows (one row of overlap), down
when `down` is true, else up. -/
def pageScroll (s : ViewportState) (totalRows : Nat) (down : Bool) : ViewportState :=
  scroll s totalRows
    (if down then ((s.visibleRowCount - 1 : Nat) : Int)
     else -((s.visibleRowCount - 1 : Nat) : Int))

/-- Modelled from the spec: `jumpHome(state)` of section 4.3. -/
def jumpHome (s : ViewportState) : ViewportState :=
  { s with topRow := 0 }

/-- Modelled from the spec: `jumpEnd(state)` of section 4.3, jumping to
the last scroll position. -/
def jumpEnd (s : ViewportState) (totalRows : Nat) : ViewportState :=
  { s with topRow := maxTopRow totalRows s.visibleRowCount }

/-- Modelled from the spec: `resize(state, newVisibleRowCount,
totalRows)` of section 4.3, re-clamping the existing `topRow` against
the new bounds rather than resetting it. -/
def resize (s : ViewportState) (newVisibleRowCount totalRows : Nat) : ViewportState :=
  { topRow := min s.topRow (maxTopRow totalRows newVisibleRowCount)
    visibleRowCount := newVisibleRowCount }

/-- Modelled from the spec: the abstract navigation events of section
4.4 that mutate the viewport (the terminal Confirm/Cancel events are
routed to the exit decision instead). -/
inductive NavEvent
  | scrollUp
  | scrollDown
  | pageUp
  | pageDown
  | home
  | ending
  deriving Repr, DecidableEq

/-- Modelled from the spec: forwarding one navigation event to the
viewport operations of section 4.3. -/
def applyNav (totalRows : Nat) (s : ViewportState) : NavEvent → ViewportState
  | .scrollUp => scroll s totalRows (-1)
  | .scrollDown => scroll s totalRows 1
  | .pageUp => pageScroll s totalRows false
  | .pageDown => pageScroll s totalRows true
  | .home => jumpHome s
  | .ending => jumpEnd s totalRows

/-- The view state constructed in `run` (main.cpp lines 217-222): the
constructor arguments, plus a viewport whose scroll state evolves
during the session (the viewport itself is modelled from the spec,
view.hpp being absent). -/
structure View where
  title : String
  text : String
  confirmActionAvailable : Bool
  wrapLinesEnabled : Bool
  isScriptOutput : Bool
  viewport : ViewportState

/-- The `View{...}` construction of main.cpp lines 217-222: title from
`determineTitle`, buffer from `readInputOrScriptName`, and the three
mode flags from the presence of `yes_button`, `wrap_lines` and
`script_file`.  The initial viewport starts at the top. -/
def mkView (fs : FileSystem) (args : Args) (visibleRowCount : Nat) : View :=
  { title := determineTitle args
    text := readInputOrScriptName fs args
    confirmActionAvailable := args.yes_button
    wrapLinesEnabled := args.wrap_lines
    isScriptOutput := args.script_file.isSome
    viewport := { topRow := 0, visibleRowCount := visibleRowCount } }

/-- Modelled from the spec: one frame's `view.draw` step as it affects
the view state.  view.hpp is absent from the sources; per spec
sections 4.4 and 6, a frame forwards its navigation events to the
viewport in arrival order and the mode flags are fixed at session
start, so only the viewport component changes. -/
def viewFrameStep (totalRows : Nat) (v : View) (events : List NavEvent) : View :=
  { v with viewport := events.foldl (applyNav totalRows) v.viewport }

/-- Outcome of the argument handling in `parseArgs` after a successful
parse (main.cpp lines 69-89): `--help` prints usage and exits the
process with code 0; a missing input or an input_file/message conflict
is rejected (parseArgs returns an empty optional); anything else is
accepted. -/
inductive ParseOutcome
  | helpExit
  | rejected
  | accepted (args : Args)
  deriving Repr, DecidableEq

/-- The validation sequence of main.cpp lines 69-89, in source order:
the help check (lines 69-73) runs first, then the no-input check
(lines 75-80), then the input_file/message conflict check (lines
82-87), and otherwise the parsed result is returned (line 89). -/
def validateParsedArgs (args : Args) : ParseOutcome :=
  if args.help then .helpExit
  else if args.input_file.isNone && args.message.isNone && args.script_file.isNone then
    .rejected
  else if args.input_file.isSome && args.message.isSome then
    .rejected
  else .accepted args

/-- The exit code of `main` (main.cpp lines 275-374) as a function of
the validation outcome: `std::exit(0)` on help (line 72), -2 when
`parseArgs` returned no result (lines 278-281), and otherwise the
value returned by the session loop `run` (lines 362, 373). -/
def mainExitCode (args : Args) (runResult : Int) : Int :=
  match validateParsedArgs args with
  | .helpExit => 0
  | .rejected => -2
  | .accepted _ => runResult

/-- Modelled from the spec: one greedy step of the wrapper of section
4.2, view.hpp being absent from the sources.  `splitRow measure maxW
used l` accumulates characters of `l` left-to-right while the
cumulative measured width stays within `maxW`, closing the current
visual row at the first character that would exceed it; a single
character wider than `maxW` at the start of a row is emitted alone on
its own row.  Returns the closed row and the remaining characters. -/
def splitRow (measure : Char → Nat) (maxW : Nat) : Nat → List Char → List Char × List Char
  | _, [] => ([], [])
  | used, c :: rest =>
    if used + measure c ≤ maxW then
      let p := splitRow measure maxW (used + measure c) rest
      (c :: p.1, p.2)
    else if used = 0 then
      ([c], rest)
    else
      ([], c :: rest)

/-- `splitRow` splits its input: the closed row followed by the
remainder is the input list. -/
theorem splitRow_append (measure : Char → Nat) (maxW : Nat) :
    ∀ (l : List Char) (used : Nat),
      (splitRow measure maxW used l).1 ++ (splitRow measure maxW used l).2 = l := by
  intro l
  induction l with
  | nil => intro used; simp [splitRow]
  | cons c rest ih =>
    intro used
    by_cases hfit : used + measure c ≤ maxW
    · simp [splitRow, hfit, ih]
    · by_cases hz : used = 0
      · subst hz
        have hfit2 : ¬ measure c ≤ maxW := by simpa using hfit
        simp [splitRow, hfit2]
      · simp [splitRow, hfit, hz]

/-- Starting a fresh row (`used = 0`) on a nonempty line always
consumes at least one character, so the remainder is strictly
shorter. -/
theorem splitRow_rem_lt (measure : Char → Nat) (maxW : Nat) (c : Char) (rest : List Char) :
    (splitRow measure maxW 0 (c :: rest)).2.length < (c :: rest).length := by
  have hrem_le : ∀ (l : List Char) (used : Nat),
      (splitRow measure maxW used l).2.length ≤ l.length := by
    intro l
    induction l with
    | nil => intro used; simp [splitRow]
    | cons d tail ih =>
      intro used
      by_cases hfit : used + measure d ≤ maxW
      · simpa [splitRow, hfit] using Nat.le_succ_of_le (ih (used + measure d))
      · by_cases hz : used = 0
        · subst hz
          have hfit2 : ¬ measure d ≤ maxW := by simpa using hfit
          simp [splitRow, hfit2]
        · simp [splitRow, hfit, hz]
  by_cases hfit : measure c ≤ maxW
  · simpa [splitRow, hfit, Nat.lt_succ_iff] using hrem_le rest (measure c)
  · simp [splitRow, hfit, Nat.lt_succ_iff]

/-- Modelled from the spec: the wrapper loop of section 4.2 over one
nonempty logical line, closing greedy rows until the line is
exhausted. -/
def wrapGo (measure : Char → Nat) (maxW : Nat) : List Char → List (List Char)
  | [] => []
  | c :: rest =>
    (splitRow measure maxW 0 (c :: rest)).1 ::
      wrapGo measure maxW (splitRow measure maxW 0 (c :: rest)).2
termination_by l => l.length
decreasing_by
  simpa using splitRow_rem_lt measure maxW c rest

/-- Modelled from the spec: `wrap` of section 4.2 restricted to one
logical line: an empty logical line still produces exactly one empty
visual row, and a nonempty line is split into greedy rows. -/
def wrapLine (measure : Char → Nat) (maxW : Nat) : List Char → List (List Char)
  | [] => [[]]
  | c :: rest => wrapGo measure maxW (c :: rest)

/-- No quit event (main.cpp lines 233-240) occurs in any frame of the
schedule. -/
def QuitFree (frames : List Frame) : Prop :=
  ∀ f ∈ frames, f.hasQuit = false

instance (frames : List Frame) : Decidable (QuitFree frames) :=
  inferInstanceAs (Decidable (∀ f ∈ frames, f.hasQuit = false))

/-- The greedy row loop concatenates back to the line it wrapped,
whatever the measure function and width. -/
theorem wrapGo_flatten (measure : Char → Nat) (maxW : Nat) :
    ∀ (n : Nat) (l : List Char), l.length ≤ n →
      (wrapGo measure maxW l).flatten = l := by
  intro n
  induction n with
  | zero =>
    intro l hl
    have : l = [] := List.length_eq_zero.mp (Nat.le_zero.mp hl)
    subst this
    simp [wrapGo]
  | succ n ih =>
    intro l hl
    match l with
    | [] => simp [wrapGo]
    | c :: rest =>
      have hlt := splitRow_rem_lt measure maxW c rest
      have hrec : (wrapGo measure maxW (splitRow measure maxW 0 (c :: rest)).2).flatten
          = (splitRow measure maxW 0 (c :: rest)).2 :=
        ih _ (Nat.le_of_lt_succ (Nat.lt_of_lt_of_le hlt hl))
      rw [wrapGo]
      simpa [hrec] using splitRow_append measure maxW (c :: rest) 0

/-- Flags (title, text, the three mode flags) are untouched by a
frame's draw step: only the viewport component changes. -/
theorem viewFrameStep_flags (totalRows : Nat) :
    ∀ (frames : List (List NavEvent)) (v : View),
      (frames.foldl (viewFrameStep totalRows) v).confirmActionAvailable
          = v.confirmActionAvailable ∧
      (frames.foldl (viewFrameStep totalRows) v).wrapLinesEnabled = v.wrapLinesEnabled ∧
      (frames.foldl (viewFrameStep totalRows) v).isScriptOutput = v.isScriptOutput := by
  intro frames
  induction frames with
  | nil => intro v; exact ⟨rfl, rfl, rfl⟩
  | cons evs rest ih =>
    intro v
    simpa [viewFrameStep] using ih { v with
      viewport := evs.foldl (applyNav totalRows) v.viewport }

/-- C5: Wrapping is lossless and order-preserving: for every
LogicalLine (a character list), every measure function and every wrap
width, concatenating the text of all VisualRows derived from the line,
in index order, reproduces the line's text exactly.  In the list
representation this flatten equality also states that the rows cover
the line exactly once, in order, with no overlap. -/
theorem wrapLine_lossless (measure : Char → Nat) (maxW : Nat) (line : List Char) :
    (wrapLine measure maxW line).flatten = line := by
  match line with
  | [] => simp [wrapLine]
  | c :: rest =>
    simpa [wrapLine] using
      wrapGo_flatten measure maxW (c :: rest).length (c :: rest) (Nat.le_refl _)

/-- C6: Every viewport operation (scroll, pageScroll, jumpHome,
jumpEnd, resize) clamps topRow into
`[0, max(0, totalRows - visibleRowCount)]`, for every prior state and
all arguments; `maxTopRow` is the truncated subtraction, and the lower
bound 0 holds by construction since `topRow : Nat`. -/
theorem viewport_ops_clamped (s : ViewportState) (totalRows : Nat) (delta : Int)
    (down : Bool) (newVisibleRowCount newTotalRows : Nat) :
    (scroll s totalRows delta).topRow ≤ maxTopRow totalRows s.visibleRowCount ∧
    (pageScroll s totalRows down).topRow ≤ maxTopRow totalRows s.visibleRowCount ∧
    (jumpHome s).topRow ≤ maxTopRow totalRows s.visibleRowCount ∧
    (jumpEnd s totalRows).topRow ≤ maxTopRow totalRows s.visibleRowCount ∧
    (resize s newVisibleRowCount newTotalRows).topRow
        ≤ maxTopRow newTotalRows newVisibleRowCount := by
  refine ⟨?_, ?_, ?_, ?_, ?_⟩
  · exact Nat.min_le_right _ _
  · exact Nat.min_le_right _ _
  · exact Nat.zero_le _
  · exact Nat.le_refl _
  · exact Nat.min_le_right _ _

/-- C1 (counterexample): the host loop also ends without view.draw
ever returning a value: on a frame whose drained events contain
SDL_QUIT, `run` returns 0 immediately (main.cpp line 241) even though
the frame's draw result is `none`, and even when a draw value 5 is
produced in the same frame the returned code is 0, not 5.  So reaching
the Exited state is not the only way the loop ends. -/
theorem runLoop_quit_counterexample :
    runLoop [⟨[SDLEvent.quit], none⟩] = .exited 0 ∧
    (⟨[SDLEvent.quit], none⟩ : Frame).draw = none ∧
    runLoop [⟨[SDLEvent.quit], some 5⟩] = .exited 0 ∧
    (0 : Int) ≠ 5 := by
  refine ⟨rfl, rfl, rfl, by decide⟩

/-- C1 (amended): the host loop ends either on a quit event, returning
0 immediately, or on the first iteration in which view.draw returns a
value; absent quit events, producing a draw value is the only way the
loop ends, it ends on the first frame producing one, and `run` returns
exactly that value (`List.findSome? Frame.draw` is the first draw
value of the schedule). -/
theorem runLoop_termination (f : Frame) (rest frames : List Frame) :
    (f.hasQuit = true → runAux none (f :: rest) = .exited 0) ∧
    (QuitFree frames →
      runLoop frames =
        match frames.findSome? Frame.draw with
        | some c => .exited c
        | none => .running) := by
  constructor
  · intro hq
    simp [runAux, hq]
  · intro hqf
    induction frames with
    | nil => rfl
    | cons g tail ih =>
      have hg : g.hasQuit = false := hqf g (List.mem_cons_self g tail)
      have htail : QuitFree tail := fun x hx => hqf x (List.mem_cons_of_mem g hx)
      match hd : g.draw with
      | some c =>
        simp [runLoop, runAux, hg, hd, List.findSome?]
      | none =>
        have := ih htail
        simpa [runLoop, runAux, hg, hd, List.findSome?] using this

/-- C1 (witness): on a quit-free two-frame schedule whose second frame
draws the value 3, the loop ends there with exit code 3. -/
theorem runLoop_termination_witness :
    QuitFree [⟨[], none⟩, ⟨[], some 3⟩] ∧
    runLoop [⟨[], none⟩, ⟨[], some 3⟩] = .exited 3 := by
  refine ⟨by decide, ?_⟩
  have h := (runLoop_termination ⟨[], none⟩ [] [⟨[], none⟩, ⟨[], some 3⟩]).2 (by decide)
  simpa [List.findSome?] using h

/-- C4: the exit decision starts at None (`run` begins the loop with
an empty optional, main.cpp line 226) and is terminal: once it holds a
value the loop returns exactly that value, processes no further frame
and never reassigns it; and in any quit-free schedule the loop ends,
the decision was produced at a unique first frame: every earlier
frame's draw was None and exactly that many frames were processed. -/
theorem exitDecision_set_once :
    (∀ frames, runLoop frames = runAux none frames) ∧
    (∀ (c : Int) (frames : List Frame),
      runAux (some c) frames = .exited c ∧ framesProcessedAux (some c) frames = 0) ∧
    (∀ (frames : List Frame) (c : Int), QuitFree frames →
      runLoop frames = .exited c →
      ∃ i, (frames.map Frame.draw)[i]? = some (some c) ∧
        (∀ j < i, (frames.map Frame.draw)[j]? = some none) ∧
        framesProcessed frames = i + 1) := by
  refine ⟨fun _ => rfl,
    fun c frames => ⟨by cases frames <;> rfl, by cases frames <;> rfl⟩, ?_⟩
  intro frames
  induction frames with
  | nil => intro c _ hrun; simp [runLoop, runAux] at hrun
  | cons g tail ih =>
    intro c hqf hrun
    have hg : g.hasQuit = false := hqf g (List.mem_cons_self g tail)
    have htail : QuitFree tail := fun x hx => hqf x (List.mem_cons_of_mem g hx)
    match hd : g.draw with
    | some d =>
      have hcd : d = c := by
        have : runAux (some d) tail = .exited c := by
          simpa [runLoop, runAux, hg, hd] using hrun
        simpa [runAux] using this
      subst hcd
      refine ⟨0, by simp [hd], by omega, ?_⟩
      simp [framesProcessed, framesProcessedAux, hg, hd]
    | none =>
      have htl : runLoop tail = .exited c := by
        simpa [runLoop, runAux, hg, hd] using hrun
      obtain ⟨i, hi, hbefore, hcount⟩ := ih c htail htl
      refine ⟨i + 1, by simpa using hi, ?_, ?_⟩
      · intro j hj
        match j with
        | 0 => simp [hd]
        | j + 1 =>
          have : j < i := by omega
          simpa using hbefore j this
      · simp [framesProcessed, framesProcessedAux, hg, hd] at hcount ⊢
        omega

/-- C4 (witness): a concrete quit-free schedule in which the second
frame sets the decision: the decision index is 1, the earlier frame
drew None, and exactly two frames were processed. -/
theorem exitDecision_set_once_witness :
    QuitFree [⟨[], none⟩, ⟨[], some 7⟩] ∧
    runLoop [⟨[], none⟩, ⟨[], some 7⟩] = .exited 7 ∧
    (∃ i, (([⟨[], none⟩, ⟨[], some 7⟩] : List Frame).map Frame.draw)[i]? = some (some 7) ∧
      (∀ j < i, (([⟨[], none⟩, ⟨[], some 7⟩] : List Frame).map Frame.draw)[j]? = some none) ∧
      framesProcessed [⟨[], none⟩, ⟨[], some 7⟩] = i + 1) := by
  refine ⟨by decide, by decide, ?_⟩
  exact exitDecision_set_once.2.2 [⟨[], none⟩, ⟨[], some 7⟩] 7 (by decide) (by decide)

/-- C2: escape decoding precedes the core.  For every inline message
(no input_file, no script_file, message given) the buffer handed to
the view is `replaceEscapeSequences` of the message; and character by
character: a backslash followed by one of f, n, r, t, v or a backslash
becomes the single corresponding control character (or a single
backslash), a backslash followed by any other character is kept as-is
(the following character is then scanned normally), a trailing lone
backslash is kept, and every other character is copied unchanged. -/
theorem escape_decoding_before_core :
    (∀ (fs : FileSystem) (args : Args) (m : String) (visibleRowCount : Nat),
      args.input_file = none → args.script_file = none → args.message = some m →
      readInputOrScriptName fs args = replaceEscapeSequences m ∧
      (mkView fs args visibleRowCount).text = replaceEscapeSequences m) ∧
    (∀ (e d : Char) (rest : List Char), escapeCode e = some d →
      replaceEscapeList ('\\' :: e :: rest) = d :: replaceEscapeList rest) ∧
    (∀ (e : Char) (rest : List Char), escapeCode e = none →
      replaceEscapeList ('\\' :: e :: rest) = '\\' :: replaceEscapeList (e :: rest)) ∧
    replaceEscapeList ['\\'] = ['\\'] ∧
    (∀ (c : Char) (rest : List Char), c ≠ '\\' →
      replaceEscapeList (c :: rest) = c :: replaceEscapeList rest) := by
  refine ⟨?_, ?_, ?_, by decide, ?_⟩
  · intro fs args m visibleRowCount h1 h2 h3
    constructor
    · simp [readInputOrScriptName, h1, h2, h3]
    · simp [mkView, readInputOrScriptName, h1, h2, h3]
  · intro e d rest h
    simp [replaceEscapeList, h]
  · intro e rest h
    simp [replaceEscapeList, h]
  · intro c rest h
    match rest with
    | [] => simp [replaceEscapeList]
    | e :: rest2 =>
      rw [replaceEscapeList]
      intro c1 r1 hc hr
      exact absurd hc h

/-- C2 (witness): concrete instances: the message "a\nb" (textual
backslash n) handed through `readInputOrScriptName` decodes to a
literal newline; each characterised rewrite step evaluated at a
concrete character. -/
theorem escape_decoding_before_core_witness :
    readInputOrScriptName (fun _ => none)
        ⟨none, none, some "a\\nb", none, false, false, false, false⟩
      = "a\nb" ∧
    replaceEscapeList ['\\', 'n', 'x'] = ['\n', 'x'] ∧
    replaceEscapeList ['\\', 'q', 'x'] = ['\\', 'q', 'x'] ∧
    replaceEscapeList ['y', 'x'] = ['y', 'x'] := by
  refine ⟨?_, ?_, ?_, ?_⟩
  · have h := (escape_decoding_before_core.1 (fun _ => none)
      ⟨none, none, some "a\\nb", none, false, false, false, false⟩ "a\\nb" 0
      rfl rfl rfl).1
    rw [h]
    decide
  · have h := escape_decoding_before_core.2.1 'n' '\n' ['x'] (by decide)
    rw [h]
    decide
  · have h := escape_decoding_before_core.2.2.1 'q' ['x'] (by decide)
    rw [h]
    decide
  · have h := escape_decoding_before_core.2.2.2.2 'y' ['x'] (by decide)
    rw [h]
    decide

/-- C3: an unopenable input file is not fatal: when the input_file
option names a file the file system cannot open,
`readInputOrScriptName` returns the empty string (main.cpp lines
145-148), the view is still constructed with that empty buffer (the
valid EmptyBuffer case), and the session loop remains exitable: a
frame whose draw returns a value still ends the loop with that exit
code. -/
theorem unopenable_input_not_fatal (fs : FileSystem) (args : Args) (name : String)
    (visibleRowCount : Nat) (hin : args.input_file = some name) (hfs : fs name = none) :
    readInputOrScriptName fs args = "" ∧
    (mkView fs args visibleRowCount).text = "" ∧
    (∀ (c : Int) (rest : List Frame), runLoop (⟨[], some c⟩ :: rest) = .exited c) := by
  refine ⟨?_, ?_, ?_⟩
  · simp [readInputOrScriptName, hin, hfs]
  · simp [mkView, readInputOrScriptName, hin, hfs]
  · intro c rest
    simp [runLoop, runAux, Frame.hasQuit]

/-- C3 (witness): a concrete invocation viewing the missing file
"absent.txt" on an empty file system: the buffer is empty and a
confirm frame with code 4 ends the session. -/
theorem unopenable_input_not_fatal_witness :
    readInputOrScriptName (fun _ => none)
        ⟨some "absent.txt", none, none, none, false, false, false, false⟩ = "" ∧
    runLoop [⟨[], some 4⟩] = .exited 4 := by
  have h := unopenable_input_not_fatal (fun _ => none)
    ⟨some "absent.txt", none, none, none, false, false, false, false⟩ "absent.txt" 0
    rfl rfl
  exact ⟨h.1, h.2.2 4 []⟩

/-- C7: the session mode flags are fixed at session start: the view is
constructed (main.cpp lines 217-222) with confirmActionAvailable equal
to the presence of yes_button, wrapLinesEnabled equal to the presence
of wrap_lines, and the live-script-output flag equal to the presence
of script_file; and across any sequence of frame steps of the session
none of the three flags changes. -/
theorem mode_flags_fixed (fs : FileSystem) (args : Args) (visibleRowCount totalRows : Nat)
    (frames : List (List NavEvent)) :
    (mkView fs args visibleRowCount).confirmActionAvailable = args.yes_button ∧
    (mkView fs args visibleRowCount).wrapLinesEnabled = args.wrap_lines ∧
    (mkView fs args visibleRowCount).isScriptOutput = args.script_file.isSome ∧
    (frames.foldl (viewFrameStep totalRows)
        (mkView fs args visibleRowCount)).confirmActionAvailable = args.yes_button ∧
    (frames.foldl (viewFrameStep totalRows)
        (mkView fs args visibleRowCount)).wrapLinesEnabled = args.wrap_lines ∧
    (frames.foldl (viewFrameStep totalRows)
        (mkView fs args visibleRowCount)).isScriptOutput = args.script_file.isSome := by
  obtain ⟨h1, h2, h3⟩ := viewFrameStep_flags totalRows frames (mkView fs args visibleRowCount)
  exact ⟨rfl, rfl, rfl, h1.trans rfl, h2.trans rfl, h3.trans rfl⟩

/-- C8: with script_file given and input_file absent,
`readInputOrScriptName` returns the script_file value itself verbatim
(main.cpp lines 159-162): the result equals the option string with no
escape-sequence replacement, and it is independent of the file system,
so the named file is neither opened nor read. -/
theorem script_name_verbatim (fs fs2 : FileSystem) (args : Args) (s : String)
    (hin : args.input_file = none) (hs : args.script_file = some s) :
    readInputOrScriptName fs args = s ∧
    readInputOrScriptName fs args = readInputOrScriptName fs2 args := by
  constructor
  · simp [readInputOrScriptName, hin, hs]
  · simp [readInputOrScriptName, hin, hs]

/-- C8 (witness): the script name "run.sh\\n" is returned verbatim —
unchanged even though escape replacement would rewrite it — on two
different file systems, one of which maps the name to a file. -/
theorem script_name_verbatim_witness :
    readInputOrScriptName (fun _ => none)
        ⟨none, some "run.sh\\n", none, none, false, false, false, false⟩ = "run.sh\\n" ∧
    readInputOrScriptName (fun _ => none)
        ⟨none, some "run.sh\\n", none, none, false, false, false, false⟩
      = readInputOrScriptName (fun _ => some "contents")
        ⟨none, some "run.sh\\n", none, none, false, false, false, false⟩ ∧
    replaceEscapeSequences "run.sh\\n" ≠ "run.sh\\n" := by
  have h := script_name_verbatim (fun _ => none) (fun _ => some "contents")
    ⟨none, some "run.sh\\n", none, none, false, false, false, false⟩ "run.sh\\n" rfl rfl
  exact ⟨h.1, h.2, by decide⟩

/-- C9: the window title precedence of `determineTitle` (main.cpp
lines 170-188): the title option if present; otherwise the input_file
option if present; otherwise "Error!!" under error_display; otherwise
"Info". -/
theorem title_precedence (args : Args) :
    (∀ t, args.title = some t → determineTitle args = t) ∧
    (∀ f, args.title = none → args.input_file = some f → determineTitle args = f) ∧
    (args.title = none → args.input_file = none → args.error_display = true →
      determineTitle args = "Error!!") ∧
    (args.title = none → args.input_file = none → args.error_display = false →
      determineTitle args = "Info") := by
  refine ⟨?_, ?_, ?_, ?_⟩
  · intro t ht; simp [determineTitle, ht]
  · intro f ht hf; simp [determineTitle, ht, hf]
  · intro ht hf he; simp [determineTitle, ht, hf, he]
  · intro ht hf he; simp [determineTitle, ht, hf, he]

/-- C9 (witness): all four precedence cases at concrete argument
sets: explicit title beats input_file, input_file beats the error
banner, error_display gives "Error!!", and the bare default is
"Info". -/
theorem title_precedence_witness :
    determineTitle ⟨some "in.txt", none, none, some "My Title", false, false, true, false⟩
      = "My Title" ∧
    determineTitle ⟨some "in.txt", none, none, none, false, false, true, false⟩
      = "in.txt" ∧
    determineTitle ⟨none, none, some "hi", none, false, false, true, false⟩
      = "Error!!" ∧
    determineTitle ⟨none, none, some "hi", none, false, false, false, false⟩
      = "Info" := by
  refine ⟨?_, ?_, ?_, ?_⟩
  · exact (title_precedence
      ⟨some "in.txt", none, none, some "My Title", false, false, true, false⟩).1
      "My Title" rfl
  · exact (title_precedence
      ⟨some "in.txt", none, none, none, false, false, true, false⟩).2.1
      "in.txt" rfl rfl
  · exact (title_precedence
      ⟨none, none, some "hi", none, false, false, true, false⟩).2.2.1 rfl rfl rfl
  · exact (title_precedence
      ⟨none, none, some "hi", none, false, false, false, false⟩).2.2.2 rfl rfl rfl

/-- C10 (counterexample): an invocation that supplies none of
input_file, message, or script_file but asks for --help is not
rejected: the help check of main.cpp lines 69-73 runs first and the
process exits with code 0 via std::exit, not -2. -/
theorem validation_help_counterexample :
    (⟨none, none, none, none, false, false, false, true⟩ : Args).input_file = none ∧
    (⟨none, none, none, none, false, false, false, true⟩ : Args).message = none ∧
    (⟨none, none, none, none, false, false, false, true⟩ : Args).script_file = none ∧
    validateParsedArgs ⟨none, none, none, none, false, false, false, true⟩
      ≠ ParseOutcome.rejected ∧
    mainExitCode ⟨none, none, none, none, false, false, false, true⟩ 99 = 0 := by
  refine ⟨rfl, rfl, rfl, by decide, by decide⟩

/-- C10 (amended): for every parseable invocation that does not
request help, validation rejects exactly the ill-formed combinations:
supplying none of input_file, message, script_file, or supplying both
input_file and message, makes `parseArgs` return no result and `main`
exit with code -2 before any session; every other such invocation is
accepted with the parsed result and `main` returns the session's exit
code. -/
theorem validation_rejects_exactly (args : Args) (r : Int) (hh : args.help = false) :
    (((args.input_file.isNone && args.message.isNone && args.script_file.isNone)
        || (args.input_file.isSome && args.message.isSome)) = true →
      validateParsedArgs args = .rejected ∧ mainExitCode args r = -2) ∧
    (((args.input_file.isNone && args.message.isNone && args.script_file.isNone)
        || (args.input_file.isSome && args.message.isSome)) = false →
      validateParsedArgs args = .accepted args ∧ mainExitCode args r = r) := by
  constructor
  · intro hbad
    rcases Bool.or_eq_true_iff.mp hbad with hnone | hboth
    · have hv : validateParsedArgs args = .rejected := by
        simp [validateParsedArgs, hh, hnone]
      exact ⟨hv, by simp [mainExitCode, hv]⟩
    · have hv : validateParsedArgs args = .rejected := by
        have hnone2 : (args.input_file.isNone && args.message.isNone
            && args.script_file.isNone) = false := by
          rcases Bool.and_eq_true_iff.mp hboth with ⟨h1, h2⟩
          simp [Option.isNone_iff_eq_none] at h1 h2 ⊢
          intro hc
          simp [hc] at h1
        simp [validateParsedArgs, hh, hnone2, hboth]
      exact ⟨hv, by simp [mainExitCode, hv]⟩
  · intro hgood
    rcases Bool.or_eq_false_iff.mp hgood with ⟨hnone, hboth⟩
    have hv : validateParsedArgs args = .accepted args := by
      simp [validateParsedArgs, hh, hnone, hboth]
    exact ⟨hv, by simp [mainExitCode, hv]⟩

/-- C10 (amended, witness): a rejected invocation (no input at all)
exits with -2, and an accepted one (message only) returns the
session's code 7. -/
theorem validation_rejects_exactly_witness :
    validateParsedArgs ⟨none, none, none, none, false, false, false, false⟩
      = ParseOutcome.rejected ∧
    mainExitCode ⟨none, none, none, none, false, false, false, false⟩ 7 = -2 ∧
    validateParsedArgs ⟨none, none, some "hi", none, false, false, false, false⟩
      = ParseOutcome.accepted ⟨none, none, some "hi", none, false, false, false, false⟩ ∧
    mainExitCode ⟨none, none, some "hi", none, false, false, false, false⟩ 7 = 7 := by
  have h1 := (validation_rejects_exactly
    ⟨none, none, none, none, false, false, false, false⟩ 7 rfl).1 (by decide)
  have h2 := (validation_rejects_exactly
    ⟨none, none, some "hi", none, false, false, false, false⟩ 7 rfl).2 (by decide)
  exact ⟨h1.1, h1.2, h2.1, h2.2⟩

end TvTextViewer
